import Mathlib

/-!
Verification development for the FRT host-side FPGA runtime
(`src/frt.cpp` and `src/frt/xilinx_opencl_device.cpp`).

The C++ code is shallowly embedded: `std::unordered_map` members become
association lists with C++ `operator[]` semantics (`mapSet` replaces an
existing binding, reads of absent keys yield the value-initialized
default), machine integers become `Int`/`Nat` (with explicit `% 2^64`
where `cl_ulong` wraparound matters), `setenv(name, value, 0)` becomes a
keep-if-set update on an `Option String`, and code that throws becomes
`Except FrtError`.  OpenCL itself is an external collaborator: devices,
events and profiling queries are abstracted as parameters, and enqueue
calls are recorded as explicit operations with their wait lists.
-/

/-- Association-list lookup: the first binding of key `k`, mirroring a
read of `std::unordered_map` (`find`/`count`). -/
def mapFind {α β : Type} [DecidableEq α] : List (α × β) → α → Option β
  | [], _ => none
  | (k', v) :: rest, k => if k' = k then some v else mapFind rest k

/-- Association-list update: replace the binding of `k` if present,
append it otherwise, mirroring assignment through
`std::unordered_map::operator[]`. -/
def mapSet {α β : Type} [DecidableEq α] : List (α × β) → α → β → List (α × β)
  | [], k, v => [(k, v)]
  | (k', v') :: rest, k, v =>
    if k' = k then (k, v) :: rest else (k', v') :: mapSet rest k v

/-- Argument categories decoded from the `addressQualifier` metadata
attribute (`ArgInfo::kScalar` / `kMmap` / `kStream`). -/
inductive ArgCat
  | scalar
  | mmap
  | stream
deriving DecidableEq

/-- One entry of `arg_table_`.  `cat = none` models an entry whose
category was never assigned because the qualifier code was unknown
(`frt.h` is not part of the sources; the claims never observe the
default category value). -/
structure ArgInfo where
  index : Int
  name : String
  type : String
  cat : Option ArgCat
  tag : String
deriving DecidableEq

/-- The value-initialized `ArgInfo` produced when `operator[]` touches an
absent key. -/
def argInfoDefault : ArgInfo := ⟨0, "", "", none, ""⟩

/-- Decoding of the `addressQualifier` codes: 0 is scalar, 1 is
memory-mapped, 4 is stream, anything else is unrecognized (the switch
only warns). -/
def argCatOf (cat : Int) : Option ArgCat :=
  if cat = 0 then some ArgCat.scalar
  else if cat = 1 then some ArgCat.mmap
  else if cat = 4 then some ArgCat.stream
  else none

/-- Error taxonomy of the runtime (each fatal path of the sources). -/
inductive FrtError
  | unsupportedFormat
  | unknownMode
  | missingMetadata
  | deviceNotFound
  | emconfigFailed
  | clError (code : Int)
deriving DecidableEq

/- ## Memory-tag resolution (`Instance::CreateBuffer`, frt.cpp:239-260) -/

/-- Vendor placement flag `XCL_MEM_DDR_BANK0` (value `1 << 8` from the
vendor header `CL/cl_ext.h`, an external interface of the repo). -/
def XCL_MEM_DDR_BANK0 : Nat := 2 ^ 8

/-- Vendor placement flag `XCL_MEM_DDR_BANK1` (`1 << 9`). -/
def XCL_MEM_DDR_BANK1 : Nat := 2 ^ 9

/-- Vendor placement flag `XCL_MEM_DDR_BANK2` (`1 << 10`). -/
def XCL_MEM_DDR_BANK2 : Nat := 2 ^ 10

/-- Vendor placement flag `XCL_MEM_DDR_BANK3` (`1 << 11`). -/
def XCL_MEM_DDR_BANK3 : Nat := 2 ^ 11

/-- Vendor flag `XCL_MEM_TOPOLOGY` (`1 << 31`) or-ed with the HBM bank
index. -/
def XCL_MEM_TOPOLOGY : Nat := 2 ^ 31

/-- Vendor flag `CL_MEM_EXT_PTR_XILINX` (`1 << 31` in the vendor header)
or-ed into the `cl_mem_flags` whenever the argument index is known. -/
def CL_MEM_EXT_PTR_XILINX : Nat := 2 ^ 31

/-- The eight initializer-list entries of `kTagTable`
(frt.cpp:240-245). -/
def ddrBase : List (String × Nat) :=
  [("bank0", XCL_MEM_DDR_BANK0), ("bank1", XCL_MEM_DDR_BANK1),
   ("bank2", XCL_MEM_DDR_BANK2), ("bank3", XCL_MEM_DDR_BANK3),
   ("DDR[0]", XCL_MEM_DDR_BANK0), ("DDR[1]", XCL_MEM_DDR_BANK1),
   ("DDR[2]", XCL_MEM_DDR_BANK2), ("DDR[3]", XCL_MEM_DDR_BANK3)]

/-- `kTagTable` after the loop `kTagTable["HBM[i]"] = i | XCL_MEM_TOPOLOGY`
for `i = 0..31` (frt.cpp:246-248). -/
def kTagTable : List (String × Nat) :=
  (List.range 32).foldl
    (fun t i => mapSet t ("HBM[" ++ toString i ++ "]") (i ||| XCL_MEM_TOPOLOGY))
    ddrBase

/-- Lookup of an argument's memory tag in `kTagTable`
(`kTagTable.find(arg_table_[index].tag)`, frt.cpp:250). -/
def resolveTag (tag : String) : Option Nat := mapFind kTagTable tag

/-- Whether `CreateBuffer` emits the unknown-memory-tag warning: the
lookup failed and the tag is non-empty (frt.cpp:257-260). -/
def tagWarning (tag : String) : Bool :=
  (resolveTag tag).isNone && !(tag == "")

/-- The `ext.flags` value `CreateBuffer` uses for a recognized argument:
the resolved flag, or 0 (`ext.flags = 0`) when the tag is unresolved
(frt.cpp:249-252). -/
def extFlagsOf (tag : String) : Nat := (resolveTag tag).getD 0

/-- The bank-name grammar documented by the spec: `bank0..bank3`,
`DDR[0..3]`, `HBM[0..31]`. -/
def documentedTags : List String :=
  ((List.range 4).map (fun i => "bank" ++ toString i)) ++
  ((List.range 4).map (fun i => "DDR[" ++ toString i ++ "]")) ++
  ((List.range 32).map (fun i => "HBM[" ++ toString i ++ "]"))

/- ## Buffer creation and recording (`Instance::CreateBuffer`, frt.cpp:236-271) -/

/-- The per-session state `CreateBuffer` reads and writes: the parsed
argument table and the `buffer_table_` of created buffer handles.
Buffer handles are abstracted as consecutive naturals (`nextHandle`):
the claims only observe which handle is recorded and returned. -/
structure BufState where
  argTable : List (Int × ArgInfo)
  bufferTable : List (Int × Nat)
  nextHandle : Nat
deriving DecidableEq

/-- What one `CreateBuffer` call produced: the returned handle, the
`cl_mem_flags` actually passed to `cl::Buffer`, the `ext.flags`
placement request, and whether the unknown-tag warning was logged. -/
structure CreatedBuffer where
  handle : Nat
  memFlags : Nat
  extFlags : Nat
  warned : Bool
deriving DecidableEq

/-- `Instance::CreateBuffer(index, flags, size, host_ptr)`
(frt.cpp:236-271): if `index` is in `arg_table_`, resolve its tag and
request vendor placement (or-ing `CL_MEM_EXT_PTR_XILINX` into the
flags); in every case create the buffer, record it in
`buffer_table_[index]` and return it.  The underlying `cl::Buffer`
allocation is abstracted as always succeeding (on a CL error the C++
aborts before recording anything, which no claim observes). -/
def createBuffer (s : BufState) (index : Int) (flags : Nat) :
    CreatedBuffer × BufState :=
  let entry := mapFind s.argTable index
  let buf : CreatedBuffer :=
    match entry with
    | some a => ⟨s.nextHandle, flags ||| CL_MEM_EXT_PTR_XILINX, extFlagsOf a.tag, tagWarning a.tag⟩
    | none => ⟨s.nextHandle, flags, 0, false⟩
  (buf, { s with bufferTable := mapSet s.bufferTable index s.nextHandle,
                 nextHandle := s.nextHandle + 1 })

/- ## Emulation-mode recording (frt.cpp:59-73 and 111-116) -/

/-- The `m_mode` field of the container header.  The recognized values
are the six `XCLBIN_*` enumerators; any other value hits the `default:`
case. -/
inductive XclbinMode
  | flat
  | pr
  | tandemStage2
  | tandemStage2WithPr
  | hwEmu
  | swEmu
  | unknown (code : Int)
deriving DecidableEq

/-- `setenv(name, value, 0)`: assign only when the variable is unset. -/
def setenvKeep (env : Option String) (v : String) : Option String :=
  match env with
  | some old => some old
  | none => some v

/-- The header-mode switch (frt.cpp:59-73): emulation variants record a
mode via `setenv(..., 0)`, the four hardware variants do nothing, and an
unrecognized value throws `"unknown xclbin mode"`. -/
def headerModeStep (env : Option String) (m : XclbinMode) :
    Except FrtError (Option String) :=
  match m with
  | XclbinMode.flat => Except.ok env
  | XclbinMode.pr => Except.ok env
  | XclbinMode.tandemStage2 => Except.ok env
  | XclbinMode.tandemStage2WithPr => Except.ok env
  | XclbinMode.hwEmu => Except.ok (setenvKeep env "hw_emu")
  | XclbinMode.swEmu => Except.ok (setenvKeep env "sw_emu")
  | XclbinMode.unknown _ => Except.error FrtError.unknownMode

/-- The metadata `target` attribute check (frt.cpp:111-116): `"hw_em"`
and `"csim"` record a mode via `setenv(..., 0)`; anything else leaves
the variable alone. -/
def targetMetaStep (env : Option String) (target : String) : Option String :=
  if target = "hw_em" then setenvKeep env "hw_emu"
  else if target = "csim" then setenvKeep env "sw_emu"
  else env

/-- The value of `XCL_EMULATION_MODE` after the container parse: the
header-mode switch followed by the metadata `target` check (the
argument-table loop between the two does not touch the variable). -/
def emulationModeAfterParse (env0 : Option String) (m : XclbinMode)
    (target : String) : Except FrtError (Option String) :=
  match headerModeStep env0 m with
  | Except.error e => Except.error e
  | Except.ok env1 => Except.ok (targetMetaStep env1 target)

/-- The mode string the header switch would record for an emulation
variant. -/
def headerEmuString : XclbinMode → String
  | XclbinMode.hwEmu => "hw_emu"
  | XclbinMode.swEmu => "sw_emu"
  | _ => ""

/-- The mode string the metadata `target` attribute specifies, when it
specifies one. -/
def metaEmuString (target : String) : Option String :=
  if target = "hw_em" then some "hw_emu"
  else if target = "csim" then some "sw_emu"
  else none

/- ## Execution pipeline (frt.cpp:273-300, xilinx_opencl_device.cpp:191-211) -/

/-- The three kinds of operation the pipeline enqueues. -/
inductive OpKind
  | loadMigrate
  | kernelExec
  | storeMigrate
deriving DecidableEq

/-- One enqueued device operation: its kind, the buffers it migrates,
the wait list of event ids passed to the enqueue call, and the
completion event id it registers. -/
structure Op where
  kind : OpKind
  buffers : List Nat
  waitList : List Nat
  eventId : Nat
deriving DecidableEq

/-- The pipeline-relevant state of one `Instance`: the load/store buffer
sets, the three event vectors (`load_event_`, `compute_event_`,
`store_event_`; each empty or a singleton), the list of operations
enqueued so far on the command queue, and a source of fresh event ids.
Buffers and events are abstracted as naturals. -/
structure PipeState where
  loadBuffers : List Nat
  storeBuffers : List Nat
  loadEvent : List Nat
  computeEvent : List Nat
  storeEvent : List Nat
  ops : List Op
  nextEventId : Nat
deriving DecidableEq

/-- The non-empty branch of `WriteToDevice`: resize `load_event_` to one
fresh event and enqueue a host-to-device migration of the load set with
an empty wait list (frt.cpp:275-277, xilinx_opencl_device.cpp:193-196). -/
def enqueueLoad (s : PipeState) : PipeState :=
  { s with loadEvent := [s.nextEventId],
           ops := s.ops ++ [⟨OpKind.loadMigrate, s.loadBuffers, [], s.nextEventId⟩],
           nextEventId := s.nextEventId + 1 }

/-- `Instance::WriteToDevice` (frt.cpp:273-279): acts only when the load
set is non-empty; an empty load set leaves the state, including any
stale `load_event_`, untouched. -/
def frtWriteToDevice (s : PipeState) : PipeState :=
  if s.loadBuffers.isEmpty then s else enqueueLoad s

/-- `XilinxOpenclDevice::WriteToDevice`
(xilinx_opencl_device.cpp:191-200): same as the frt.cpp version except
that the empty-set branch clears `load_event_`. -/
def xilinxWriteToDevice (s : PipeState) : PipeState :=
  if s.loadBuffers.isEmpty then { s with loadEvent := [] } else enqueueLoad s

/-- `Instance::Exec` (frt.cpp:290-295): enqueue the kernel with
`load_event_` as its wait list and register a fresh compute event,
replacing any prior one. -/
def frtExec (s : PipeState) : PipeState :=
  { s with computeEvent := [s.nextEventId],
           ops := s.ops ++ [⟨OpKind.kernelExec, [], s.loadEvent, s.nextEventId⟩],
           nextEventId := s.nextEventId + 1 }

/-- `Instance::ReadFromDevice` (frt.cpp:281-288): when the store set is
non-empty, enqueue a device-to-host migration with `compute_event_` as
its wait list and register a fresh store event. -/
def frtReadFromDevice (s : PipeState) : PipeState :=
  if s.storeBuffers.isEmpty then s
  else
    { s with storeEvent := [s.nextEventId],
             ops := s.ops ++ [⟨OpKind.storeMigrate, s.storeBuffers, s.computeEvent, s.nextEventId⟩],
             nextEventId := s.nextEventId + 1 }

/-- A fresh `Instance` right after construction: the given load/store
sets, no events, nothing enqueued. -/
def initPipe (loads stores : List Nat) : PipeState :=
  ⟨loads, stores, [], [], [], [], 0⟩

/-- One full pipeline run `WriteToDevice(); Exec(); ReadFromDevice()` on
a fresh session. -/
def runPipeline (loads stores : List Nat) : PipeState :=
  frtReadFromDevice (frtExec (frtWriteToDevice (initPipe loads stores)))

/-- A device-side schedule: the observed start and end time of each
event id. -/
structure Sched where
  startOf : Nat → Nat
  endOf : Nat → Nat

/-- A schedule respects the enqueued dependencies when every operation
starts no earlier than the completion of each event in its wait list
(the guarantee the out-of-order OpenCL queue gives for the wait lists
passed to each enqueue call). -/
def ValidSched (sched : Sched) (ops : List Op) : Prop :=
  ∀ op ∈ ops, ∀ w ∈ op.waitList, sched.endOf w ≤ sched.startOf op.eventId

instance (sched : Sched) (ops : List Op) : Decidable (ValidSched sched ops) := by
  unfold ValidSched
  infer_instance

/- ## Profiling (frt.cpp:302-358) -/

/-- The four profiling timestamps (`CL_PROFILING_COMMAND_QUEUED`,
`SUBMIT`, `START`, `END`). -/
inductive QueryKind
  | queued
  | submit
  | start
  | finish
deriving DecidableEq

/-- The `*ProfilingInfo` guard (frt.cpp:309-329): when the phase's event
vector is empty, return `0ULL` without touching the device; otherwise
query timestamp `k` of the event, which may surface a CL error through
`CL_CHECK`.  `q` is the device's (possibly failing) profiling query. -/
def phaseQuery (event : List Nat) (q : Nat → QueryKind → Except FrtError Nat)
    (k : QueryKind) : Except FrtError Nat :=
  match event with
  | [] => Except.ok 0
  | e :: _ => q e k

/-- `Instance::LoadProfilingInfo` on `load_event_`. -/
def loadProfilingQuery (s : PipeState) (q : Nat → QueryKind → Except FrtError Nat)
    (k : QueryKind) : Except FrtError Nat :=
  phaseQuery s.loadEvent q k

/-- `Instance::ComputeProfilingInfo` on `compute_event_`. -/
def computeProfilingQuery (s : PipeState) (q : Nat → QueryKind → Except FrtError Nat)
    (k : QueryKind) : Except FrtError Nat :=
  phaseQuery s.computeEvent q k

/-- `Instance::StoreProfilingInfo` on `store_event_`. -/
def storeProfilingQuery (s : PipeState) (q : Nat → QueryKind → Except FrtError Nat)
    (k : QueryKind) : Except FrtError Nat :=
  phaseQuery s.storeEvent q k

/-- `cl_ulong` subtraction: wraparound at `2^64`. -/
def sub64 (a b : Nat) : Nat := (((a : Int) - (b : Int)) % (2 ^ 64)).toNat

/-- `Instance::LoadTimeNanoSeconds` (frt.cpp:330-333): the END timestamp
minus the START timestamp as unsigned 64-bit arithmetic. -/
def loadTimeNanoSeconds (s : PipeState)
    (q : Nat → QueryKind → Except FrtError Nat) : Except FrtError Nat := do
  let e ← loadProfilingQuery s q QueryKind.finish
  let st ← loadProfilingQuery s q QueryKind.start
  Except.ok (sub64 e st)

/-- `Instance::ComputeTimeNanoSeconds` (frt.cpp:334-337). -/
def computeTimeNanoSeconds (s : PipeState)
    (q : Nat → QueryKind → Except FrtError Nat) : Except FrtError Nat := do
  let e ← computeProfilingQuery s q QueryKind.finish
  let st ← computeProfilingQuery s q QueryKind.start
  Except.ok (sub64 e st)

/-- `Instance::StoreTimeNanoSeconds` (frt.cpp:338-341). -/
def storeTimeNanoSeconds (s : PipeState)
    (q : Nat → QueryKind → Except FrtError Nat) : Except FrtError Nat := do
  let e ← storeProfilingQuery s q QueryKind.finish
  let st ← storeProfilingQuery s q QueryKind.start
  Except.ok (sub64 e st)

/-- The value of an IEEE-754 `double`, as far as the claims observe it:
a finite rational, positive infinity, or NaN. -/
inductive FVal
  | finite (q : ℚ)
  | posInf
  | nan
deriving DecidableEq

/-- IEEE-754 division of the nonnegative `double` cast of `num` by the
`double` cast of `den`: `0/0` is NaN, `x/0` for `x ≠ 0` is `+inf`,
otherwise the exact quotient (the rounding of a finite quotient is
irrelevant to the claims, which only test it against 0 and NaN). -/
def ieeeDivNat (num den : Nat) : FVal :=
  if den = 0 then (if num = 0 then FVal.nan else FVal.posInf)
  else FVal.finite ((num : ℚ) / (den : ℚ))

/-- `Instance::LoadThroughputGbps` (frt.cpp:345-351): the summed sizes
of the load buffers divided by the load duration in `double`
arithmetic.  `sizeOf` models `buffer.getInfo<CL_MEM_SIZE>()`. -/
def loadThroughputGbps (s : PipeState)
    (q : Nat → QueryKind → Except FrtError Nat) (sizeOf : Nat → Nat) :
    Except FrtError FVal := do
  let dur ← loadTimeNanoSeconds s q
  Except.ok (ieeeDivNat ((s.loadBuffers.map sizeOf).sum) dur)

/-- `Instance::StoreThroughputGbps` (frt.cpp:352-358). -/
def storeThroughputGbps (s : PipeState)
    (q : Nat → QueryKind → Except FrtError Nat) (sizeOf : Nat → Nat) :
    Except FrtError FVal := do
  let dur ← storeTimeNanoSeconds s q
  Except.ok (ieeeDivNat ((s.storeBuffers.map sizeOf).sum) dur)

/- ## Metadata parsing: the multi-kernel argument table
(`XilinxOpenclDevice::XilinxOpenclDevice`, xilinx_opencl_device.cpp:84-111) -/

/-- One `<arg>` element as the multi-kernel parser reads it (`name`,
`type`, `addressQualifier` attributes; its `id` attribute is not used
by this parser). -/
structure XmlArg where
  name : String
  type : String
  addressQualifier : Int
deriving DecidableEq

/-- One `<kernel>` element: its `name` attribute and its `<arg>`
children in document order. -/
structure XmlKernel where
  name : String
  args : List XmlArg
deriving DecidableEq

/-- The accumulator of the kernel loop: `kernel_names`,
`kernel_arg_counts`, `arg_table_` and the running `arg_count`. -/
structure KState where
  kernelNames : List String
  kernelArgCounts : List Int
  argTable : List (Int × ArgInfo)
  argCount : Int
deriving DecidableEq

/-- The `ArgInfo` the arg loop stores for the argument at shared-table
position `idx` (xilinx_opencl_device.cpp:91-109): `index =
arg_count`, name/type from the attributes, the decoded category (left
unset for an unknown qualifier code, which only warns), tag empty. -/
def mkArgInfo (idx : Int) (a : XmlArg) : ArgInfo :=
  ⟨idx, a.name, a.type, argCatOf a.addressQualifier, ""⟩

/-- One iteration of the arg loop: `arg_table_[arg_count]` is read (and
value-initialized if absent) through `operator[]`, its fields assigned,
and `arg_count` incremented. -/
def parseArg (st : KState) (a : XmlArg) : KState :=
  let old := (mapFind st.argTable st.argCount).getD argInfoDefault
  let newCat :=
    match argCatOf a.addressQualifier with
    | some c => some c
    | none => old.cat
  { st with
    argTable := mapSet st.argTable st.argCount
      ⟨st.argCount, a.name, a.type, newCat, old.tag⟩,
    argCount := st.argCount + 1 }

/-- One iteration of the kernel loop
(xilinx_opencl_device.cpp:84-111): push the kernel name, record the
current `arg_count` as this kernel's starting offset, then run the arg
loop. -/
def parseKernel (st : KState) (k : XmlKernel) : KState :=
  k.args.foldl parseArg
    { st with kernelNames := st.kernelNames ++ [k.name],
              kernelArgCounts := st.kernelArgCounts ++ [st.argCount] }

/-- The whole kernel loop from the empty state. -/
def parseKernels (ks : List XmlKernel) : KState :=
  ks.foldl parseKernel ⟨[], [], [], 0⟩

/-- All `<arg>` elements of the metadata, in declaration order across
kernels. -/
def allArgs : List XmlKernel → List XmlArg
  | [] => []
  | k :: rest => k.args ++ allArgs rest

/-- The shared argument table laid out explicitly: entry `i` holds the
`i`-th declared argument under key `i`. -/
def tableFrom (i : Int) : List XmlArg → List (Int × ArgInfo)
  | [] => []
  | a :: rest => (i, mkArgInfo i a) :: tableFrom (i + 1) rest

/-- The kernel starting offsets: each kernel starts where the previous
one ended. -/
def offsetsFrom (n : Int) : List XmlKernel → List Int
  | [] => []
  | k :: rest => n :: offsetsFrom (n + k.args.length) rest

/-- All keys of an association list are below `n`. -/
def KeysBelow (t : List (Int × ArgInfo)) (n : Int) : Prop :=
  ∀ p ∈ t, p.1 < n

/- ## Metadata parsing: the single-kernel frt.cpp path and the
topology/connectivity sections (`Instance::Instance`, frt.cpp:86-141) -/

/-- One `<arg>` element as frt.cpp reads it: here the table key comes
from the `id` attribute (`atoi(xml_arg->Attribute("id"))`,
frt.cpp:91). -/
structure FrtXmlArg where
  id : Int
  name : String
  type : String
  addressQualifier : Int
deriving DecidableEq

/-- The frt.cpp arg loop (frt.cpp:89-110): one kernel only, the table
keyed by the `id` attribute through `operator[]` (an unknown qualifier
code leaves the category of the touched entry unchanged). -/
def frtParseArgs (args : List FrtXmlArg) : List (Int × ArgInfo) :=
  args.foldl
    (fun t a =>
      let old := (mapFind t a.id).getD argInfoDefault
      let newCat :=
        match argCatOf a.addressQualifier with
        | some c => some c
        | none => old.cat
      mapSet t a.id ⟨a.id, a.name, a.type, newCat, old.tag⟩)
    []

/-- One `mem_data` record of the memory-topology section: its `m_used`
flag and its `m_tag` name. -/
structure MemRegion where
  used : Bool
  tag : String
deriving DecidableEq

/-- The topology loop (frt.cpp:126-131) starting at index `i`: used
regions are entered into `memory_table` under their position, unused
ones are skipped. -/
def buildMemoryTableAux (i : Int) :
    List MemRegion → List (Int × String) → List (Int × String)
  | [], t => t
  | r :: rest, t =>
    buildMemoryTableAux (i + 1) rest (if r.used then mapSet t i r.tag else t)

/-- `memory_table` after the topology loop. -/
def buildMemoryTable (regions : List MemRegion) : List (Int × String) :=
  buildMemoryTableAux 0 regions []

/-- The region at position `i` of the topology, with C++ `int` indexing
(negative indices address nothing). -/
def regionAt : List MemRegion → Int → Option MemRegion
  | [], _ => none
  | r :: rest, i =>
    if i = 0 then some r else if i < 0 then none else regionAt rest (i - 1)

/-- One `connection` record of the connectivity section. -/
structure Conn where
  argIndex : Int
  memDataIndex : Int
deriving DecidableEq

/-- One iteration of the connectivity loop (frt.cpp:137-140):
`arg_table_[c.arg_index].tag = memory_table[c.mem_data_index]`.  Both
sides use `operator[]`: the right-hand read yields the value-initialized
empty string when the region index has no entry, and the left-hand side
value-initializes an absent argument entry before assigning its tag. -/
def applyConn (t : List (Int × ArgInfo)) (mem : List (Int × String))
    (c : Conn) : List (Int × ArgInfo) :=
  let old := (mapFind t c.argIndex).getD argInfoDefault
  mapSet t c.argIndex { old with tag := (mapFind mem c.memDataIndex).getD "" }

/- ## Container construction and device binding (`Instance::Instance`,
frt.cpp:50-234) -/

/-- The embedded-metadata section as the XML walk reads it: the first
kernel's name, the `core` element's `target` attribute, and the first
kernel's `<arg>` children. -/
structure XmlMeta where
  kernelName : String
  target : String
  args : List FrtXmlArg
deriving DecidableEq

/-- The decoded sections of one container beyond its raw leading bytes:
header mode and platform identity, and the three optional sections.
The byte-level layout of the `axlf` structs is an external interface;
the magic signature, which is all the constructor checks on the raw
bytes, is kept at the byte level separately. -/
structure ContainerData where
  mode : XclbinMode
  deviceName : String
  metadata : Option XmlMeta
  topology : Option (List MemRegion)
  connectivity : Option (List Conn)
deriving DecidableEq

/-- What the parse phase of the constructor produces: the recorded
emulation mode, the kernel name, and the completed argument table. -/
structure FrtParsed where
  env : Option String
  kernelName : String
  argTable : List (Int × ArgInfo)
deriving DecidableEq

/-- The expected 8-byte signature `"xclbin2"` with its terminating NUL
(`memcmp(binary.data(), "xclbin2", 8)`, frt.cpp:56). -/
def magicBytes : List Nat := [120, 99, 108, 98, 105, 110, 50, 0]

/-- The magic check of frt.cpp:56: at least 8 bytes and the first 8
equal to the signature. -/
def magicOk (blob : List Nat) : Bool :=
  decide (8 ≤ blob.length) && decide (blob.take 8 = magicBytes)

/-- `XilinxOpenclDevice::New` (xilinx_opencl_device.cpp:176-183)
accepts the binaries only when there is exactly one blob of at least 8
bytes matching the signature; otherwise it returns `nullptr`. -/
def xilinxNewAccepts (binaries : List (List Nat)) : Bool :=
  match binaries with
  | [b] => magicOk b
  | _ => false

/-- The parse phase after a successful magic check (frt.cpp:59-141):
header-mode switch, metadata section (absence is fatal: `"cannot
determine kernel name from binary"`), argument loop, `target` override,
then the optional topology and connectivity sections. -/
def parseAfterMagic (c : ContainerData) (env0 : Option String) :
    Except FrtError FrtParsed :=
  match headerModeStep env0 c.mode with
  | Except.error e => Except.error e
  | Except.ok env1 =>
    match c.metadata with
    | none => Except.error FrtError.missingMetadata
    | some m =>
      let table := frtParseArgs m.args
      let env2 := targetMetaStep env1 m.target
      let memTable :=
        match c.topology with
        | none => []
        | some rs => buildMemoryTable rs
      let table2 :=
        match c.connectivity with
        | none => table
        | some cs => cs.foldl (fun t cn => applyConn t memTable cn) table
      Except.ok ⟨env2, m.kernelName, table2⟩

/-- One enumerated OpenCL device: its `CL_DEVICE_NAME` and whether
creating a context on it succeeds (`false` models
`CL_DEVICE_NOT_AVAILABLE`, the one status the scan recovers from). -/
structure ClDevice where
  name : String
  available : Bool
deriving DecidableEq

/-- One enumerated OpenCL platform: its `CL_PLATFORM_NAME` and its
accelerator-class devices. -/
structure ClPlatform where
  name : String
  devices : List ClDevice
deriving DecidableEq

/-- Enumeration effects of the constructor: the `cl::Platform::get`
call and each `getDevices` call on a vendor-matching platform. -/
inductive TraceEv
  | platformQuery
  | deviceQuery (platformName : String)
deriving DecidableEq

/-- The inner device loop (frt.cpp:203-231): take the first device
whose name equals the target and whose context creation succeeds;
`CL_DEVICE_NOT_AVAILABLE` continues the scan. -/
def findInDevices (target : String) : List ClDevice → Option ClDevice
  | [] => none
  | d :: rest =>
    if d.name = target then
      if d.available then some d else findInDevices target rest
    else findInDevices target rest

/-- The platform loop (frt.cpp:196-233): each platform's name is
compared with the vendor; devices of matching platforms are enumerated
and scanned; the loop stops at the first bound device. -/
def deviceBindAux (vendor target : String) :
    List ClPlatform → Option ClDevice × List TraceEv
  | [] => (none, [])
  | p :: rest =>
    if p.name = vendor then
      match findInDevices target p.devices with
      | some d => (some d, [TraceEv.deviceQuery p.name])
      | none =>
        let r := deviceBindAux vendor target rest
        (r.1, TraceEv.deviceQuery p.name :: r.2)
    else deviceBindAux vendor target rest

/-- Device binding including the initial `cl::Platform::get` call. -/
def deviceBind (platforms : List ClPlatform) (vendor target : String) :
    Option ClDevice × List TraceEv :=
  let r := deviceBindAux vendor target platforms
  (r.1, TraceEv.platformQuery :: r.2)

/-- `Instance::Instance` end to end (frt.cpp:50-234), with the
emulation bootstrapping (emconfig generation, toolchain environment
sourcing) elided as external collaborators: check the magic bytes
(failure throws `"unexpected bitstream file"` before anything else),
parse the container, then enumerate platforms and devices and bind the
first match.  The constructor's result is `ok` together with the bound
device — `ok none` when the loops find no match, because the C++
constructor simply falls off the end of the loops.  The trace records
which enumeration calls happened. -/
def instanceConstruct (blob : List Nat) (c : ContainerData)
    (env0 : Option String) (platforms : List ClPlatform) :
    Except FrtError (Option ClDevice) × List TraceEv :=
  if magicOk blob then
    match parseAfterMagic c env0 with
    | Except.error e => (Except.error e, [])
    | Except.ok _ =>
      let r := deviceBind platforms "Xilinx" c.deviceName
      (Except.ok r.1, r.2)
  else (Except.error FrtError.unsupportedFormat, [])

/- ## Concrete inputs used to exercise the theorems -/

/-- A session state left over from a prior run: empty load set, stale
`load_event_` holding event 7. -/
def staleLoadState : PipeState := ⟨[], [], [7], [], [], [], 8⟩

/-- A profiling query that fails on every event, exercising the claim
that empty-event phases never touch the device. -/
def qFail : Nat → QueryKind → Except FrtError Nat :=
  fun _ _ => Except.error (FrtError.clError 1)

/-- A fresh session with empty load and store sets. -/
def emptyPipe : PipeState := ⟨[], [], [], [], [], [], 0⟩

/-- A schedule placing event `e` at `[2e, 2e+1]`. -/
def sched0 : Sched := ⟨fun e => 2 * e, fun e => 2 * e + 1⟩

/-- A container blob with the correct `"xclbin2"` signature. -/
def goodBlob : List Nat := magicBytes ++ [0, 0, 0, 0]

/-- A container blob starting with `"notxcl1"` instead of the
signature. -/
def notxclBlob : List Nat := [110, 111, 116, 120, 99, 108, 49, 0]

/-- A container targeting a `u280` device. -/
def c3Container : ContainerData :=
  ⟨XclbinMode.flat, "xilinx_u280_xdma_201920_3",
   some ⟨"vadd", "hw", []⟩, none, none⟩

/-- An enumeration offering only a `u250` accelerator on the Xilinx
platform: no platform/device pair matches `c3Container`. -/
def c3Platforms : List ClPlatform :=
  [⟨"Xilinx", [⟨"xilinx_u250_xdma_201830_2", true⟩]⟩,
   ⟨"Intel(R) OpenCL", []⟩]

/-- Two kernels with two and one arguments. -/
def c1Kernels : List XmlKernel :=
  [⟨"vadd", [⟨"a", "int*", 1⟩, ⟨"n", "int", 0⟩]⟩,
   ⟨"vmul", [⟨"b", "float*", 1⟩]⟩]

/- ## Generic association-map lemmas -/

theorem mapFind_mapSet_self {α β : Type} [DecidableEq α]
    (m : List (α × β)) (k : α) (v : β) : mapFind (mapSet m k v) k = some v := by
  induction m with
  | nil => simp [mapSet, mapFind]
  | cons p rest ih =>
    obtain ⟨k', v'⟩ := p
    by_cases h : k' = k
    · simp [mapSet, h, mapFind]
    · simp [mapSet, h, mapFind, ih]

theorem mapFind_mapSet_ne {α β : Type} [DecidableEq α]
    (m : List (α × β)) (k j : α) (v : β) (h : j ≠ k) :
    mapFind (mapSet m k v) j = mapFind m j := by
  induction m with
  | nil =>
    have hne : ¬k = j := fun hh => h hh.symm
    simp [mapSet, mapFind, hne]
  | cons p rest ih =>
    obtain ⟨k', v'⟩ := p
    by_cases hk : k' = k
    · subst hk
      have hne : ¬k' = j := fun hh => h hh.symm
      simp [mapSet, mapFind, hne]
    · by_cases hj : k' = j
      · subst hj
        simp [mapSet, hk, mapFind, h]
      · simp [mapSet, hk, mapFind, hj, ih]

theorem mapSet_fresh {α β : Type} [DecidableEq α]
    (m : List (α × β)) (k : α) (v : β) (h : ∀ p ∈ m, p.1 ≠ k) :
    mapSet m k v = m ++ [(k, v)] := by
  induction m with
  | nil => simp [mapSet]
  | cons p rest ih =>
    obtain ⟨k', v'⟩ := p
    have hk : k' ≠ k := h (k', v') (by simp)
    simp [mapSet, hk]
    exact ih (fun q hq => h q (by simp [hq]))

theorem mapFind_mem {α β : Type} [DecidableEq α]
    (m : List (α × β)) (k : α) (v : β) (h : mapFind m k = some v) :
    k ∈ m.map Prod.fst := by
  induction m with
  | nil => simp [mapFind] at h
  | cons p rest ih =>
    obtain ⟨k', v'⟩ := p
    by_cases hk : k' = k
    · simp [hk]
    · simp [mapFind, hk] at h
      simp [ih h]

/- ## Supporting lemmas for tag resolution -/

theorem resolveTag_documented :
    ∀ t ∈ documentedTags, (resolveTag t).isSome = true := by decide

theorem kTagTable_keys_documented :
    ∀ k ∈ kTagTable.map Prod.fst, k ∈ documentedTags := by decide

theorem targetMetaStep_some (v target : String) :
    targetMetaStep (some v) target = some v := by
  by_cases h1 : target = "hw_em" <;> by_cases h2 : target = "csim" <;>
    simp [targetMetaStep, setenvKeep, h1, h2]

/- ## C10 -/

/-- C10: every `CreateBuffer` call — also with an index absent from the
argument table — records the created buffer handle in `buffer_table_`
under that index, replacing any prior binding there and leaving every
other index untouched, and returns the same handle to the caller. -/
theorem create_buffer_records (s : BufState) (index : Int) (flags : Nat) :
    mapFind (createBuffer s index flags).2.bufferTable index
        = some (createBuffer s index flags).1.handle ∧
    ∀ j, j ≠ index →
      mapFind (createBuffer s index flags).2.bufferTable j
        = mapFind s.bufferTable j := by
  constructor
  · cases h : mapFind s.argTable index <;>
      simp [createBuffer, h, mapFind_mapSet_self]
  · intro j hj
    cases h : mapFind s.argTable index <;>
      simp [createBuffer, h, mapFind_mapSet_ne s.bufferTable index j s.nextHandle hj]

/-- Witness for C10 at a session whose argument table is empty and
whose buffer table already binds index 5: the new handle 10 replaces
the old binding 9 and index 6 is untouched. -/
theorem create_buffer_records_witness :
    mapFind (createBuffer ⟨[], [(5, 9)], 10⟩ 5 1).2.bufferTable 5
        = some (createBuffer ⟨[], [(5, 9)], 10⟩ 5 1).1.handle ∧
    mapFind (createBuffer ⟨[], [(5, 9)], 10⟩ 5 1).2.bufferTable 6
        = mapFind [(5, 9)] 6 :=
  ⟨(create_buffer_records ⟨[], [(5, 9)], 10⟩ 5 1).1,
   (create_buffer_records ⟨[], [(5, 9)], 10⟩ 5 1).2 6 (by decide)⟩

/- ## C5 -/

/-- C5: every tag of the documented bank grammar (`bank0..bank3`,
`DDR[0..3]`, `HBM[0..31]`) resolves to a defined placement flag; every
other non-empty tag resolves to nothing and only triggers the warning;
the empty tag resolves to nothing and triggers no warning.  Resolution
is a total function — it never fails. -/
theorem memory_tag_resolution (tag : String) :
    (tag ∈ documentedTags → ∃ f, resolveTag tag = some f) ∧
    (tag ∉ documentedTags → tag ≠ "" →
      resolveTag tag = none ∧ tagWarning tag = true) ∧
    resolveTag "" = none ∧ tagWarning "" = false := by
  refine ⟨?_, ?_, by decide, by decide⟩
  · intro h
    exact Option.isSome_iff_exists.mp (resolveTag_documented tag h)
  · intro hnot hne
    have hnone : resolveTag tag = none := by
      cases h : resolveTag tag with
      | none => rfl
      | some f =>
        exact absurd (kTagTable_keys_documented tag (mapFind_mem _ _ _ h)) hnot
    refine ⟨hnone, ?_⟩
    simp [tagWarning, hnone, hne]

/-- Witness for C5: `HBM[31]` resolves, `bank9` is unknown (warning,
no flag), the empty tag is silent. -/
theorem memory_tag_resolution_witness :
    (∃ f, resolveTag "HBM[31]" = some f) ∧
    (resolveTag "bank9" = none ∧ tagWarning "bank9" = true) ∧
    resolveTag "" = none ∧ tagWarning "" = false :=
  ⟨(memory_tag_resolution "HBM[31]").1 (by decide),
   (memory_tag_resolution "bank9").2.1 (by decide) (by decide),
   (memory_tag_resolution "").2.2⟩

/- ## C2 -/

/-- C2 counterexample: a container whose header mode is the
hardware-emulation variant and whose metadata `target` is `"csim"`.
Because every `setenv` call passes overwrite = 0, the header-derived
`"hw_emu"` — recorded first — wins, and the metadata-derived `"sw_emu"`
is not recorded: the metadata-derived mode does not take precedence. -/
theorem emulation_precedence_cex :
    emulationModeAfterParse none XclbinMode.hwEmu "csim"
        = Except.ok (some "hw_emu") ∧
    emulationModeAfterParse none XclbinMode.hwEmu "csim"
        ≠ Except.ok (some "sw_emu") ∧
    metaEmuString "csim" = some "sw_emu" := by
  refine ⟨rfl, ?_, rfl⟩
  intro h
  rw [show emulationModeAfterParse none XclbinMode.hwEmu "csim"
        = Except.ok (some "hw_emu") from rfl] at h
  simp at h

/-- C2 amended: whichever `setenv` runs first on an unset variable
wins.  With the variable unset, an emulation header mode records the
header-derived string regardless of the metadata target; the
metadata-derived mode is recorded only when the header mode is a
non-emulation variant (here: flat); an externally preset value is never
overwritten. -/
theorem emulation_mode_first_set_wins (m : XclbinMode) (target : String)
    (hm : m = XclbinMode.hwEmu ∨ m = XclbinMode.swEmu) :
    emulationModeAfterParse none m target
        = Except.ok (some (headerEmuString m)) ∧
    (∀ v, emulationModeAfterParse (some v) m target = Except.ok (some v)) ∧
    (∀ s, metaEmuString target = some s →
      emulationModeAfterParse none XclbinMode.flat target
          = Except.ok (some s)) := by
  have hmeta : ∀ s, metaEmuString target = some s →
      emulationModeAfterParse none XclbinMode.flat target
        = Except.ok (some s) := by
    intro s hs
    by_cases h1 : target = "hw_em"
    · subst h1
      simp [metaEmuString] at hs
      simp [emulationModeAfterParse, headerModeStep, targetMetaStep, setenvKeep, ← hs]
    · by_cases h2 : target = "csim"
      · subst h2
        simp [metaEmuString] at hs
        simp [emulationModeAfterParse, headerModeStep, targetMetaStep, setenvKeep,
              h1, ← hs]
      · simp [metaEmuString, h1, h2] at hs
  rcases hm with h | h <;> subst h <;>
    exact ⟨by simp [emulationModeAfterParse, headerModeStep, setenvKeep,
                    headerEmuString, targetMetaStep_some],
           fun v => by simp [emulationModeAfterParse, headerModeStep, setenvKeep,
                             targetMetaStep_some],
           hmeta⟩

/-- Witness for C2's amended statement at the counterexample input. -/
theorem emulation_mode_first_set_wins_witness :
    emulationModeAfterParse none XclbinMode.hwEmu "csim"
        = Except.ok (some (headerEmuString XclbinMode.hwEmu)) :=
  (emulation_mode_first_set_wins XclbinMode.hwEmu "csim" (Or.inl rfl)).1

/- ## C6 -/

/-- C6 counterexample: calling `Instance::WriteToDevice` with an empty
load set while a stale load event (7) is still registered leaves the
stale event in place — frt.cpp has no clearing branch. -/
theorem write_to_device_cex :
    staleLoadState.loadBuffers.isEmpty = true ∧
    (frtWriteToDevice staleLoadState).loadEvent = [7] ∧
    (frtWriteToDevice staleLoadState).loadEvent ≠ [] := by decide

/-- C6 amended: a call with a non-empty load set enqueues one migration
for exactly those buffers and captures one completion event, in both
implementations identically; a call with an empty load set clears the
prior load event only in `XilinxOpenclDevice::WriteToDevice`, while
`Instance::WriteToDevice` (frt.cpp) leaves the state — including any
stale load event — unchanged. -/
theorem write_to_device_behavior (s : PipeState) :
    (s.loadBuffers.isEmpty = false →
      (frtWriteToDevice s).ops
          = s.ops ++ [⟨OpKind.loadMigrate, s.loadBuffers, [], s.nextEventId⟩] ∧
      (frtWriteToDevice s).loadEvent = [s.nextEventId] ∧
      xilinxWriteToDevice s = frtWriteToDevice s) ∧
    (s.loadBuffers.isEmpty = true →
      frtWriteToDevice s = s ∧
      (xilinxWriteToDevice s).loadEvent = [] ∧
      (xilinxWriteToDevice s).ops = s.ops) := by
  constructor
  · intro h
    simp [frtWriteToDevice, xilinxWriteToDevice, enqueueLoad, h]
  · intro h
    simp [frtWriteToDevice, xilinxWriteToDevice, h]

/-- Witness for C6's amended statement: a non-empty load set `[3]` on a
fresh session enqueues one migration and registers event 0. -/
theorem write_to_device_behavior_witness :
    (frtWriteToDevice ⟨[3], [], [], [], [], [], 0⟩).ops
        = [] ++ [⟨OpKind.loadMigrate, [3], [], 0⟩] ∧
    (frtWriteToDevice ⟨[3], [], [], [], [], [], 0⟩).loadEvent = [0] ∧
    xilinxWriteToDevice ⟨[3], [], [], [], [], [], 0⟩
        = frtWriteToDevice ⟨[3], [], [], [], [], [], 0⟩ :=
  (write_to_device_behavior ⟨[3], [], [], [], [], [], 0⟩).1 (by decide)

/- ## C7 -/

/-- C7 counterexample: on a phase with no event and no buffers the
throughput expression is `double(0) / 0`, which is IEEE NaN — not
zero. -/
theorem profiling_zero_phase_cex :
    loadThroughputGbps emptyPipe qFail (fun _ => 4096) = Except.ok FVal.nan ∧
    FVal.nan ≠ FVal.finite 0 := by
  exact ⟨rfl, by decide⟩

/-- C7 amended: for a phase whose completion event does not exist, all
four timestamp queries return zero without touching the device (hence
without error, even under an always-failing query), and the duration is
zero; the reported throughput of a load/store phase with an empty
buffer set is the IEEE value `0/0 = NaN`, not zero. -/
theorem profiling_missing_event (s : PipeState)
    (q : Nat → QueryKind → Except FrtError Nat) (sizeOf : Nat → Nat) :
    (s.loadEvent = [] →
      (∀ k, loadProfilingQuery s q k = Except.ok 0) ∧
      loadTimeNanoSeconds s q = Except.ok 0) ∧
    (s.loadEvent = [] → s.loadBuffers = [] →
      loadThroughputGbps s q sizeOf = Except.ok FVal.nan) ∧
    (s.storeEvent = [] →
      (∀ k, storeProfilingQuery s q k = Except.ok 0) ∧
      storeTimeNanoSeconds s q = Except.ok 0) ∧
    (s.storeEvent = [] → s.storeBuffers = [] →
      storeThroughputGbps s q sizeOf = Except.ok FVal.nan) ∧
    (s.computeEvent = [] →
      (∀ k, computeProfilingQuery s q k = Except.ok 0) ∧
      computeTimeNanoSeconds s q = Except.ok 0) := by
  refine ⟨fun h => ⟨fun k => ?_, ?_⟩, fun h hb => ?_, fun h => ⟨fun k => ?_, ?_⟩,
          fun h hb => ?_, fun h => ⟨fun k => ?_, ?_⟩⟩ <;>
    simp [loadProfilingQuery, storeProfilingQuery, computeProfilingQuery,
          loadTimeNanoSeconds, storeTimeNanoSeconds, computeTimeNanoSeconds,
          loadThroughputGbps, storeThroughputGbps, phaseQuery, h, sub64, ieeeDivNat,
          bind, Except.bind, Int.zero_emod, *]

/-- Witness for C7's amended statement on a fresh empty session under
an always-failing device query. -/
theorem profiling_missing_event_witness :
    loadProfilingQuery emptyPipe qFail QueryKind.queued = Except.ok 0 ∧
    loadTimeNanoSeconds emptyPipe qFail = Except.ok 0 ∧
    loadThroughputGbps emptyPipe qFail (fun _ => 1) = Except.ok FVal.nan ∧
    storeThroughputGbps emptyPipe qFail (fun _ => 1) = Except.ok FVal.nan :=
  ⟨((profiling_missing_event emptyPipe qFail (fun _ => 1)).1 rfl).1 QueryKind.queued,
   ((profiling_missing_event emptyPipe qFail (fun _ => 1)).1 rfl).2,
   (profiling_missing_event emptyPipe qFail (fun _ => 1)).2.1 rfl rfl,
   (profiling_missing_event emptyPipe qFail (fun _ => 1)).2.2.2.1 rfl rfl⟩

/- ## C3 -/

/-- C3 (divergence witness): when no enumerated platform/device pair
matches the vendor and the parsed device identity, `Instance::Instance`
does not fail — the loops end, the constructor returns normally, and
the session is left unbound (`ok none`).  No `DeviceNotFound` error is
raised, contrary to the claim. -/
theorem device_not_found_not_raised :
    (instanceConstruct goodBlob c3Container none c3Platforms).1
        = Except.ok none ∧
    (instanceConstruct goodBlob c3Container none c3Platforms).1
        ≠ Except.error FrtError.deviceNotFound ∧
    (deviceBind c3Platforms "Xilinx" c3Container.deviceName).1 = none := by
  refine ⟨rfl, ?_, rfl⟩
  intro h
  rw [show (instanceConstruct goodBlob c3Container none c3Platforms).1
        = Except.ok none from rfl] at h
  simp at h

/- ## C8 -/

/-- C8: a blob whose first 8 bytes do not match the `"xclbin2"`
signature makes construction fail with the unsupported-format error
before anything else happens: the effect trace is empty, so no platform
or device enumeration occurred; `XilinxOpenclDevice::New` likewise
rejects the binaries. -/
theorem bad_magic_no_enumeration (blob : List Nat) (c : ContainerData)
    (env0 : Option String) (platforms : List ClPlatform)
    (h : magicOk blob = false) :
    instanceConstruct blob c env0 platforms
        = (Except.error FrtError.unsupportedFormat, []) ∧
    xilinxNewAccepts [blob] = false := by
  constructor
  · simp [instanceConstruct, h]
  · simp [xilinxNewAccepts, h]

/-- Witness for C8 at the `"notxcl1"` blob of the spec scenario. -/
theorem bad_magic_no_enumeration_witness :
    magicOk notxclBlob = false ∧
    instanceConstruct notxclBlob c3Container none c3Platforms
        = (Except.error FrtError.unsupportedFormat, []) ∧
    xilinxNewAccepts [notxclBlob] = false :=
  ⟨by decide,
   (bad_magic_no_enumeration notxclBlob c3Container none c3Platforms (by decide)).1,
   (bad_magic_no_enumeration notxclBlob c3Container none c3Platforms (by decide)).2⟩

/- ## C9: supporting lemmas about the topology table -/

theorem regionAt_neg (l : List MemRegion) (i : Int) (h : i < 0) :
    regionAt l i = none := by
  cases l with
  | nil => rfl
  | cons r rest =>
    have h0 : ¬i = 0 := by omega
    simp [regionAt, h0, h]

theorem buildMemoryTableAux_find (regions : List MemRegion) :
    ∀ (i : Int) (t : List (Int × String)) (j : Int),
      mapFind (buildMemoryTableAux i regions t) j =
        match regionAt regions (j - i) with
        | some r => if r.used then some r.tag else mapFind t j
        | none => mapFind t j := by
  induction regions with
  | nil =>
    intro i t j
    simp [buildMemoryTableAux, regionAt]
  | cons r rest ih =>
    intro i t j
    simp only [buildMemoryTableAux]
    by_cases hji : j = i
    · subst hji
      have h1 : regionAt rest (j - (j + 1)) = none := regionAt_neg _ _ (by omega)
      have h2 : regionAt (r :: rest) (j - j) = some r := by
        simp [regionAt]
      rw [ih (j + 1) _ j, h1, h2]
      by_cases hu : r.used <;> simp [hu, mapFind_mapSet_self]
    · have ht' : mapFind (if r.used then mapSet t i r.tag else t) j = mapFind t j := by
        by_cases hu : r.used <;> simp [hu, mapFind_mapSet_ne t i j r.tag hji]
      by_cases hlt : j - i < 0
      · have h1 : regionAt rest (j - (i + 1)) = none := regionAt_neg _ _ (by omega)
        have h2 : regionAt (r :: rest) (j - i) = none := by
          have hz : ¬j - i = 0 := by omega
          simp [regionAt, hz, hlt]
        rw [ih (i + 1) _ j, h1, h2, ht']
      · have hz : ¬j - i = 0 := by omega
        have h2 : regionAt (r :: rest) (j - i) = regionAt rest (j - i - 1) := by
          simp [regionAt, hz, hlt]
        have h3 : j - i - 1 = j - (i + 1) := by ring
        rw [ih (i + 1) _ j, h2, h3]
        cases hR : regionAt rest (j - (i + 1)) with
        | none => simp [ht']
        | some r' => by_cases hu : r'.used <;> simp [hu, ht']

theorem buildMemoryTable_find (regions : List MemRegion) (j : Int) :
    mapFind (buildMemoryTable regions) j =
      match regionAt regions j with
      | some r => if r.used then some r.tag else none
      | none => none := by
  have h := buildMemoryTableAux_find regions 0 [] j
  rw [buildMemoryTable, h]
  cases hR : regionAt regions (j - 0) with
  | none => simp [hR, show regionAt regions j = none from by simpa using hR, mapFind]
  | some r =>
    have hj : regionAt regions j = some r := by simpa using hR
    by_cases hu : r.used <;> simp [hR, hj, hu, mapFind]

/- ## C9 -/

/-- C9: a connectivity edge whose memory-region index refers to a
region marked unused — or to no region of the topology at all — sets
the argument's memory tag to the empty string (no warning exists on
this code path), and buffer creation then derives no placement flag and
no warning from that tag. -/
theorem conn_unused_region (regions : List MemRegion)
    (t : List (Int × ArgInfo)) (c : Conn)
    (h : (regionAt regions c.memDataIndex).all (fun r => !r.used) = true) :
    ∃ info : ArgInfo,
      mapFind (applyConn t (buildMemoryTable regions) c) c.argIndex = some info ∧
      info.tag = "" ∧
      extFlagsOf info.tag = 0 ∧
      tagWarning info.tag = false := by
  have hnone : mapFind (buildMemoryTable regions) c.memDataIndex = none := by
    rw [buildMemoryTable_find]
    cases hR : regionAt regions c.memDataIndex with
    | none => rfl
    | some r =>
      rw [hR] at h
      simp [Option.all] at h
      simp [h]
  refine ⟨{ (mapFind t c.argIndex).getD argInfoDefault with tag := "" },
          ?_, rfl, ?_, ?_⟩
  · simp [applyConn, hnone, mapFind_mapSet_self]
  · show extFlagsOf "" = 0
    decide
  · show tagWarning "" = false
    decide

/-- Witness for C9: one unused region `DDR[0]` and an edge pointing to
it from argument 2. -/
theorem conn_unused_region_witness :
    (regionAt [⟨false, "DDR[0]"⟩] (0 : Int)).all (fun r => !r.used) = true ∧
    ∃ info : ArgInfo,
      mapFind (applyConn [] (buildMemoryTable [⟨false, "DDR[0]"⟩]) ⟨2, 0⟩)
          (2 : Int) = some info ∧
      info.tag = "" ∧
      extFlagsOf info.tag = 0 ∧
      tagWarning info.tag = false :=
  ⟨by decide, conn_unused_region [⟨false, "DDR[0]"⟩] [] ⟨2, 0⟩ (by decide)⟩

/- ## C4 -/

/-- C4: over one pipeline run `WriteToDevice(); Exec(); ReadFromDevice()`
on a fresh session, any schedule that respects the declared wait lists
never starts the store migration before the compute event completes and
never starts the compute kernel before the load event completes —
because `Exec` passes `load_event_` and `ReadFromDevice` passes
`compute_event_` as wait lists; a phase with an empty buffer set
enqueues nothing and registers no event, and the downstream phase then
carries an empty wait list (the dependency is already satisfied). -/
theorem pipeline_event_ordering (loads stores : List Nat) (sched : Sched)
    (hv : ValidSched sched (runPipeline loads stores).ops) :
    (∀ op ∈ (runPipeline loads stores).ops, op.kind = OpKind.storeMigrate →
      ∀ ce ∈ (runPipeline loads stores).computeEvent,
        sched.endOf ce ≤ sched.startOf op.eventId) ∧
    (∀ op ∈ (runPipeline loads stores).ops, op.kind = OpKind.kernelExec →
      ∀ le ∈ (runPipeline loads stores).loadEvent,
        sched.endOf le ≤ sched.startOf op.eventId) ∧
    (loads.isEmpty = true →
      (runPipeline loads stores).loadEvent = [] ∧
      ∀ op ∈ (runPipeline loads stores).ops,
        op.kind = OpKind.kernelExec → op.waitList = []) ∧
    (stores.isEmpty = true →
      (runPipeline loads stores).storeEvent = [] ∧
      ∀ op ∈ (runPipeline loads stores).ops, op.kind ≠ OpKind.storeMigrate) := by
  by_cases hl : loads.isEmpty = true <;> by_cases hs : stores.isEmpty = true <;>
    simp only [runPipeline, initPipe, frtWriteToDevice, frtExec, frtReadFromDevice,
               enqueueLoad, hl, hs, if_true, if_false, Bool.false_eq_true] at hv ⊢ <;>
    refine ⟨?_, ?_, ?_, ?_⟩ <;>
    simp_all [ValidSched, List.mem_cons, OpKind]

/-- Witness for C4: on the run with load set `[10]` and store set
`[20]` under the valid schedule `sched0`, the compute event (1)
completes before the store migration (event 2) starts, and the load
event (0) completes before the kernel (event 1) starts. -/
theorem pipeline_event_ordering_witness :
    sched0.endOf 1 ≤ sched0.startOf 2 ∧ sched0.endOf 0 ≤ sched0.startOf 1 :=
  ⟨(pipeline_event_ordering [10] [20] sched0 (by decide)).1
      ⟨OpKind.storeMigrate, [20], [1], 2⟩ (by decide) rfl 1 (by decide),
   (pipeline_event_ordering [10] [20] sched0 (by decide)).2.1
      ⟨OpKind.kernelExec, [], [0], 1⟩ (by decide) rfl 0 (by decide)⟩

/- ## C1: supporting lemmas about the shared argument table -/

theorem keysBelow_find_none (t : List (Int × ArgInfo)) (n : Int)
    (h : KeysBelow t n) : mapFind t n = none := by
  induction t with
  | nil => rfl
  | cons p rest ih =>
    obtain ⟨k, v⟩ := p
    have hk : k < n := h (k, v) (by simp)
    have hne : ¬k = n := by omega
    simp [mapFind, hne]
    exact ih (fun q hq => h q (by simp [hq]))

theorem tableFrom_length (i : Int) (xs : List XmlArg) :
    (tableFrom i xs).length = xs.length := by
  induction xs generalizing i with
  | nil => rfl
  | cons a rest ih => simp [tableFrom, ih]

theorem tableFrom_keys (i : Int) (xs : List XmlArg) :
    ∀ p ∈ tableFrom i xs, i ≤ p.1 ∧ p.1 < i + xs.length := by
  induction xs generalizing i with
  | nil => simp [tableFrom]
  | cons a rest ih =>
    intro p hp
    rcases List.mem_cons.mp hp with h | h
    · subst h
      refine ⟨le_refl i, ?_⟩
      show i < i + ((a :: rest).length : Int)
      simp only [List.length_cons]
      push_cast
      omega
    · have := ih (i + 1) p h
      simp only [List.length_cons]
      push_cast
      push_cast at this
      omega

theorem tableFrom_append (i : Int) (xs ys : List XmlArg) :
    tableFrom i (xs ++ ys) = tableFrom i xs ++ tableFrom (i + xs.length) ys := by
  induction xs generalizing i with
  | nil => simp [tableFrom]
  | cons a rest ih =>
    simp only [List.cons_append, tableFrom]
    congr 1
    rw [show (rest.append ys) = rest ++ ys from rfl, ih (i + 1)]
    congr 2
    simp only [List.length_cons]
    push_cast
    ring

theorem mapFind_tableFrom (xs : List XmlArg) :
    ∀ (i : Int) (j : Nat) (a : XmlArg), xs[j]? = some a →
      mapFind (tableFrom i xs) (i + j) = some (mkArgInfo (i + j) a) := by
  induction xs with
  | nil =>
    intro i j a h
    simp at h
  | cons x rest ih =>
    intro i j a h
    cases j with
    | zero =>
      simp at h
      subst h
      simp [tableFrom, mapFind]
    | succ jj =>
      rw [List.getElem?_cons_succ] at h
      have hne : ¬i = i + ((jj : Int) + 1) := by omega
      have hrec := ih (i + 1) jj a h
      have harith : (i + 1) + (jj : Int) = i + ((jj : Int) + 1) := by ring
      rw [harith] at hrec
      simp only [tableFrom, mapFind]
      push_cast
      simp only [hne, if_false]
      exact hrec

theorem parseArg_spec (st : KState) (a : XmlArg)
    (h : KeysBelow st.argTable st.argCount) :
    (parseArg st a).argTable
        = st.argTable ++ [(st.argCount, mkArgInfo st.argCount a)] ∧
    (parseArg st a).argCount = st.argCount + 1 ∧
    (parseArg st a).kernelNames = st.kernelNames ∧
    (parseArg st a).kernelArgCounts = st.kernelArgCounts := by
  have hfind : mapFind st.argTable st.argCount = none := keysBelow_find_none _ _ h
  have hfresh : ∀ p ∈ st.argTable, p.1 ≠ st.argCount := by
    intro p hp
    have := h p hp
    omega
  refine ⟨?_, rfl, rfl, rfl⟩
  simp only [parseArg, hfind, Option.getD_none]
  rw [mapSet_fresh st.argTable st.argCount _ hfresh]
  congr 2
  cases hc : argCatOf a.addressQualifier <;>
    simp [mkArgInfo, hc, argInfoDefault]

theorem foldl_parseArg (xs : List XmlArg) :
    ∀ st : KState, KeysBelow st.argTable st.argCount →
      (xs.foldl parseArg st).argTable
          = st.argTable ++ tableFrom st.argCount xs ∧
      (xs.foldl parseArg st).argCount = st.argCount + xs.length ∧
      (xs.foldl parseArg st).kernelNames = st.kernelNames ∧
      (xs.foldl parseArg st).kernelArgCounts = st.kernelArgCounts := by
  induction xs with
  | nil =>
    intro st h
    simp [tableFrom]
  | cons a rest ih =>
    intro st h
    have hp := parseArg_spec st a h
    have h' : KeysBelow (parseArg st a).argTable (parseArg st a).argCount := by
      rw [hp.1, hp.2.1]
      intro p hmem
      rcases List.mem_append.mp hmem with hm | hm
      · have := h p hm
        omega
      · simp only [List.mem_singleton] at hm
        subst hm
        show st.argCount < st.argCount + 1
        omega
    have hrest := ih (parseArg st a) h'
    rw [List.foldl_cons]
    refine ⟨?_, ?_, ?_, ?_⟩
    · rw [hrest.1, hp.1, hp.2.1]
      simp only [tableFrom, List.append_assoc, List.singleton_append]
    · rw [hrest.2.1, hp.2.1]
      simp only [List.length_cons]
      push_cast
      ring
    · rw [hrest.2.2.1, hp.2.2.1]
    · rw [hrest.2.2.2, hp.2.2.2]

theorem parseKernel_spec (k : XmlKernel) (st : KState)
    (h : KeysBelow st.argTable st.argCount) :
    (parseKernel st k).argTable = st.argTable ++ tableFrom st.argCount k.args ∧
    (parseKernel st k).argCount = st.argCount + k.args.length ∧
    (parseKernel st k).kernelNames = st.kernelNames ++ [k.name] ∧
    (parseKernel st k).kernelArgCounts = st.kernelArgCounts ++ [st.argCount] := by
  have := foldl_parseArg k.args
    { st with kernelNames := st.kernelNames ++ [k.name],
              kernelArgCounts := st.kernelArgCounts ++ [st.argCount] } h
  exact ⟨this.1, this.2.1, this.2.2.1, this.2.2.2⟩

theorem foldl_parseKernel (ks : List XmlKernel) :
    ∀ st : KState, KeysBelow st.argTable st.argCount →
      (ks.foldl parseKernel st).argTable
          = st.argTable ++ tableFrom st.argCount (allArgs ks) ∧
      (ks.foldl parseKernel st).argCount = st.argCount + (allArgs ks).length ∧
      (ks.foldl parseKernel st).kernelNames
          = st.kernelNames ++ ks.map XmlKernel.name ∧
      (ks.foldl parseKernel st).kernelArgCounts
          = st.kernelArgCounts ++ offsetsFrom st.argCount ks := by
  induction ks with
  | nil =>
    intro st h
    simp [allArgs, tableFrom, offsetsFrom]
  | cons k rest ih =>
    intro st h
    have hp := parseKernel_spec k st h
    have h' : KeysBelow (parseKernel st k).argTable (parseKernel st k).argCount := by
      rw [hp.1, hp.2.1]
      intro p hmem
      rcases List.mem_append.mp hmem with hm | hm
      · have := h p hm
        omega
      · have := tableFrom_keys st.argCount k.args p hm
        omega
    have hrest := ih (parseKernel st k) h'
    rw [List.foldl_cons]
    refine ⟨?_, ?_, ?_, ?_⟩
    · rw [hrest.1, hp.1, hp.2.1]
      show _ = st.argTable ++ tableFrom st.argCount (k.args ++ allArgs rest)
      rw [tableFrom_append, List.append_assoc]
    · rw [hrest.2.1, hp.2.1]
      show _ = st.argCount + ((k.args ++ allArgs rest).length : Int)
      simp only [List.length_append]
      push_cast
      ring
    · rw [hrest.2.2.1, hp.2.2.1]
      simp
    · rw [hrest.2.2.2, hp.2.2.2, hp.2.1]
      show _ = st.kernelArgCounts
          ++ (st.argCount :: offsetsFrom (st.argCount + k.args.length) rest)
      simp

theorem parseKernels_spec (ks : List XmlKernel) :
    (parseKernels ks).argTable = tableFrom 0 (allArgs ks) ∧
    (parseKernels ks).argCount = ((allArgs ks).length : Int) ∧
    (parseKernels ks).kernelNames = ks.map XmlKernel.name ∧
    (parseKernels ks).kernelArgCounts = offsetsFrom 0 ks := by
  have h0 : KeysBelow (⟨[], [], [], 0⟩ : KState).argTable
      (⟨[], [], [], 0⟩ : KState).argCount := by
    intro p hp
    simp at hp
  have := foldl_parseKernel ks ⟨[], [], [], 0⟩ h0
  refine ⟨?_, ?_, ?_, ?_⟩
  · simpa using this.1
  · simpa using this.2.1
  · simpa using this.2.2.1
  · simpa using this.2.2.2

theorem allArgs_decomp (ks : List XmlKernel) :
    ∀ (k : Nat) (kern : XmlKernel), ks[k]? = some kern →
      allArgs ks
        = allArgs (ks.take k) ++ (kern.args ++ allArgs (ks.drop (k + 1))) := by
  induction ks with
  | nil =>
    intro k kern h
    simp at h
  | cons k0 rest ih =>
    intro k kern h
    cases k with
    | zero =>
      simp at h
      subst h
      simp [allArgs]
    | succ kk =>
      rw [List.getElem?_cons_succ] at h
      simp only [List.take_succ_cons, List.drop_succ_cons, allArgs,
                 ih kk kern h, List.append_assoc]

theorem offsetsFrom_get (ks : List XmlKernel) :
    ∀ (n : Int) (k : Nat) (kern : XmlKernel), ks[k]? = some kern →
      (offsetsFrom n ks)[k]?
        = some (n + ((allArgs (ks.take k)).length : Int)) := by
  induction ks with
  | nil =>
    intro n k kern h
    simp at h
  | cons k0 rest ih =>
    intro n k kern h
    cases k with
    | zero =>
      simp [offsetsFrom, allArgs]
    | succ kk =>
      rw [List.getElem?_cons_succ] at h
      have hrec := ih (n + k0.args.length) kk kern h
      simp only [offsetsFrom, List.getElem?_cons_succ, hrec,
                 List.take_succ_cons, allArgs]
      congr 1
      simp only [List.length_append]
      push_cast
      ring

/- ## C1 -/

/-- C1: over all declared kernels, the parsed shared argument table of
the multi-kernel parser has exactly one entry per `arg` element (its
size is the total `arg` count), and for the `j`-th declared argument of
the `k`-th kernel the entry is stored under — and carries as its
`index` — that kernel's recorded starting offset (the total argument
count of the preceding kernels) plus `j`. -/
theorem argument_table_layout (ks : List XmlKernel) (k j : Nat)
    (kern : XmlKernel) (a : XmlArg)
    (hk : ks[k]? = some kern) (ha : kern.args[j]? = some a) :
    (parseKernels ks).argTable.length = (allArgs ks).length ∧
    (parseKernels ks).kernelArgCounts[k]?
        = some (((allArgs (ks.take k)).length : Int)) ∧
    mapFind (parseKernels ks).argTable
        (((allArgs (ks.take k)).length : Int) + (j : Int))
      = some (mkArgInfo (((allArgs (ks.take k)).length : Int) + (j : Int)) a) ∧
    (mkArgInfo (((allArgs (ks.take k)).length : Int) + (j : Int)) a).index
      = ((allArgs (ks.take k)).length : Int) + (j : Int) := by
  obtain ⟨hT, hC, hN, hO⟩ := parseKernels_spec ks
  have hlen : j < kern.args.length := by
    by_contra hc
    rw [List.getElem?_eq_none (by omega)] at ha
    exact Option.noConfusion ha
  refine ⟨?_, ?_, ?_, rfl⟩
  · rw [hT, tableFrom_length]
  · rw [hO]
    have := offsetsFrom_get ks 0 k kern hk
    simpa using this
  · have hdec := allArgs_decomp ks k kern hk
    have hget : (allArgs ks)[(allArgs (ks.take k)).length + j]? = some a := by
      rw [hdec, List.getElem?_append_right (by omega)]
      have hsub : (allArgs (ks.take k)).length + j - (allArgs (ks.take k)).length
          = j := by omega
      rw [hsub, List.getElem?_append_left hlen, ha]
    have hfound := mapFind_tableFrom (allArgs ks) 0
      ((allArgs (ks.take k)).length + j) a hget
    rw [hT]
    have harith : (0 : Int) + (((allArgs (ks.take k)).length + j : Nat) : Int)
        = ((allArgs (ks.take k)).length : Int) + (j : Int) := by
      push_cast
      ring
    rw [harith] at hfound
    exact hfound

/-- Witness for C1 at a two-kernel container: the only argument of the
second kernel lands at table position 2 (after the first kernel's two
arguments) with index 2. -/
theorem argument_table_layout_witness :
    (parseKernels c1Kernels).argTable.length = (allArgs c1Kernels).length ∧
    (parseKernels c1Kernels).kernelArgCounts[1]?
        = some (((allArgs (c1Kernels.take 1)).length : Int)) ∧
    mapFind (parseKernels c1Kernels).argTable
        (((allArgs (c1Kernels.take 1)).length : Int) + ((0 : Nat) : Int))
      = some (mkArgInfo
          (((allArgs (c1Kernels.take 1)).length : Int) + ((0 : Nat) : Int))
          ⟨"b", "float*", 1⟩) ∧
    (mkArgInfo (((allArgs (c1Kernels.take 1)).length : Int) + ((0 : Nat) : Int))
        ⟨"b", "float*", 1⟩).index
      = ((allArgs (c1Kernels.take 1)).length : Int) + ((0 : Nat) : Int) :=
  argument_table_layout c1Kernels 1 0 ⟨"vmul", [⟨"b", "float*", 1⟩]⟩
    ⟨"b", "float*", 1⟩ rfl rfl
